import Mathlib

/-!
Verification of the authentication core of the golrackpi library
(`package golrackpi`: `NewWithParameter`, `SetScheme`, `Login`, `Logout`).

Bytes are modelled as `Nat` values below 256; machine 32-bit words are
`Nat` reduced with `% 2 ^ 32` where overflow matters.  Fallible Go code is
modelled with `Except`; a failed Go type assertion (`x.(string)`) is a
run-time panic and is modelled as a distinguished error value.
-/

/-- Reduce a natural number to a 32-bit word (Go `uint32` arithmetic). -/
def w32 (n : Nat) : Nat := n % 4294967296

/-- Rotate a 32-bit word right by `n` bits. -/
def rotr (n x : Nat) : Nat := w32 ((x >>> n) ||| (x <<< (32 - n)))

/-- SHA-256 choice function `Ch(x,y,z)`. -/
def shaCh (x y z : Nat) : Nat := (x &&& y) ^^^ ((x ^^^ 4294967295) &&& z)

/-- SHA-256 majority function `Maj(x,y,z)`. -/
def shaMaj (x y z : Nat) : Nat := (x &&& y) ^^^ (x &&& z) ^^^ (y &&& z)

/-- SHA-256 big sigma 0. -/
def bigSigma0 (x : Nat) : Nat := rotr 2 x ^^^ rotr 13 x ^^^ rotr 22 x

/-- SHA-256 big sigma 1. -/
def bigSigma1 (x : Nat) : Nat := rotr 6 x ^^^ rotr 11 x ^^^ rotr 25 x

/-- SHA-256 small sigma 0. -/
def smallSigma0 (x : Nat) : Nat := rotr 7 x ^^^ rotr 18 x ^^^ (x >>> 3)

/-- SHA-256 small sigma 1. -/
def smallSigma1 (x : Nat) : Nat := rotr 17 x ^^^ rotr 19 x ^^^ (x >>> 10)

/-- Binary-search step for the integer cube root. -/
def icbrtGo : Nat → Nat → Nat → Nat → Nat
  | 0, _, lo, _ => lo
  | fuel + 1, n, lo, hi =>
    if hi ≤ lo + 1 then lo
    else
      let mid := (lo + hi) / 2
      if mid * mid * mid ≤ n then icbrtGo fuel n mid hi else icbrtGo fuel n lo mid

/-- Integer cube root (largest `r` with `r ^ 3 ≤ n`), by binary search. -/
def icbrt (n : Nat) : Nat := icbrtGo 256 n 0 (n + 1)

/-- First 32 bits of the fractional part of the cube root of `p`. -/
def fracCbrt (p : Nat) : Nat := icbrt (p <<< 96) % 4294967296

/-- First 32 bits of the fractional part of the square root of `p`. -/
def fracSqrt (p : Nat) : Nat := Nat.sqrt (p <<< 64) % 4294967296

/-- The first 64 primes. -/
def sha256Primes : List Nat :=
  [2, 3, 5, 7, 11, 13, 17, 19, 23, 29, 31, 37, 41, 43, 47, 53,
   59, 61, 67, 71, 73, 79, 83, 89, 97, 101, 103, 107, 109, 113, 127, 131,
   137, 139, 149, 151, 157, 163, 167, 173, 179, 181, 191, 193, 197, 199, 211, 223,
   227, 229, 233, 239, 241, 251, 257, 263, 269, 271, 277, 281, 283, 293, 307, 311]

/-- The 64 SHA-256 round constants: per FIPS 180-4, the first 32 bits of
the fractional parts of the cube roots of the first 64 primes (equal to
the table hard-coded in Go's `crypto/sha256`). -/
def shaK : List Nat := sha256Primes.map fracCbrt

/-- Working state of the SHA-256 compression function (eight 32-bit words). -/
structure Sha256St where
  a : Nat
  b : Nat
  c : Nat
  d : Nat
  e : Nat
  f : Nat
  g : Nat
  h : Nat
deriving DecidableEq

/-- SHA-256 initial hash value: per FIPS 180-4, the first 32 bits of the
fractional parts of the square roots of the first 8 primes. -/
def sha256Init : Sha256St :=
  ⟨fracSqrt 2, fracSqrt 3, fracSqrt 5, fracSqrt 7, fracSqrt 11, fracSqrt 13, fracSqrt 17,
   fracSqrt 19⟩

/-- One SHA-256 round with round constant `k` and schedule word `w`. -/
def shaRound (st : Sha256St) (k w : Nat) : Sha256St :=
  let t1 := w32 (st.h + bigSigma1 st.e + shaCh st.e st.f st.g + k + w)
  let t2 := w32 (bigSigma0 st.a + shaMaj st.a st.b st.c)
  ⟨w32 (t1 + t2), st.a, st.b, st.c, w32 (st.d + t1), st.e, st.f, st.g⟩

/-- Group a byte list into big-endian 32-bit words (four bytes per word). -/
def bytesToWords : List Nat → List Nat
  | b1 :: b2 :: b3 :: b4 :: rest => (((b1 * 256 + b2) * 256 + b3) * 256 + b4) :: bytesToWords rest
  | _ => []

/-- Extend the 16 message words of a block to the 64-entry message schedule. -/
def scheduleExtend (w0 : List Nat) : List Nat :=
  (List.range 48).foldl
    (fun ws _ =>
      let n := ws.length
      ws ++ [w32 (smallSigma1 (ws.getD (n - 2) 0) + ws.getD (n - 7) 0 +
                  smallSigma0 (ws.getD (n - 15) 0) + ws.getD (n - 16) 0)])
    w0

/-- SHA-256 compression of one 64-byte block into the chaining state. -/
def compressBlock (st : Sha256St) (block : List Nat) : Sha256St :=
  let ws := scheduleExtend (bytesToWords block)
  let fin := (shaK.zip ws).foldl (fun s kw => shaRound s kw.1 kw.2) st
  ⟨w32 (st.a + fin.a), w32 (st.b + fin.b), w32 (st.c + fin.c), w32 (st.d + fin.d),
   w32 (st.e + fin.e), w32 (st.f + fin.f), w32 (st.g + fin.g), w32 (st.h + fin.h)⟩

/-- Big-endian byte serialization of a natural number into `k` bytes. -/
def natToBytesBE : Nat → Nat → List Nat
  | 0, _ => []
  | k + 1, n => natToBytesBE k (n / 256) ++ [n % 256]

/-- SHA-256 padding: append `0x80`, zero bytes, and the 64-bit bit length. -/
def sha256Pad (msg : List Nat) : List Nat :=
  let l := msg.length
  let z := (119 - l % 64) % 64
  msg ++ [128] ++ List.replicate z 0 ++ natToBytesBE 8 (l * 8)

/-- Split a byte list into successive 64-byte chunks. -/
def chunks64 (l : List Nat) : List (List Nat) :=
  if h : l = [] then [] else l.take 64 :: chunks64 (l.drop 64)
termination_by l.length
decreasing_by
  have hl : 0 < l.length := List.length_pos.mpr h
  simp only [List.length_drop]
  omega

/-- SHA-256 of a byte list, producing the 32-byte digest. -/
def sha256 (msg : List Nat) : List Nat :=
  let fin := (chunks64 (sha256Pad msg)).foldl compressBlock sha256Init
  natToBytesBE 4 fin.a ++ natToBytesBE 4 fin.b ++ natToBytesBE 4 fin.c ++ natToBytesBE 4 fin.d ++
  natToBytesBE 4 fin.e ++ natToBytesBE 4 fin.f ++ natToBytesBE 4 fin.g ++ natToBytesBE 4 fin.h

theorem natToBytesBE_length (k n : Nat) : (natToBytesBE k n).length = k := by
  induction k generalizing n with
  | zero => rfl
  | succ k ih => simp [natToBytesBE, ih]

theorem sha256_length (msg : List Nat) : (sha256 msg).length = 32 := by
  simp [sha256, natToBytesBE_length]

/-- HMAC-SHA-256 over byte lists (RFC 2104 with a 64-byte block size),
matching Go's `crypto/hmac` with `sha256.New`. -/
def hmacSha256 (key msg : List Nat) : List Nat :=
  let k1 := if key.length > 64 then sha256 key else key
  let k2 := k1 ++ List.replicate (64 - k1.length) 0
  sha256 ((k2.map (fun b => b ^^^ 92)) ++ sha256 ((k2.map (fun b => b ^^^ 54)) ++ msg))

theorem hmacSha256_length (key msg : List Nat) : (hmacSha256 key msg).length = 32 := by
  simp [hmacSha256, sha256_length]

/-- UTF-8 encoding of a Unicode code point. -/
def utf8Encode (c : Nat) : List Nat :=
  if c < 128 then [c]
  else if c < 2048 then [192 ||| c / 64, 128 ||| c % 64]
  else if c < 65536 then [224 ||| c / 4096, 128 ||| (c / 64) % 64, 128 ||| c % 64]
  else [240 ||| c / 262144, 128 ||| (c / 4096) % 64, 128 ||| (c / 64) % 64, 128 ||| c % 64]

/-- The byte list of a Go string: UTF-8 bytes, as produced by `[]byte(s)`. -/
def strBytes (s : String) : List Nat :=
  s.data.foldr (fun c acc => utf8Encode c.toNat ++ acc) []

/-- Model of a Go `crypto/hmac` hash object (`hmac.New(sha256.New, key)`):
per the `hash.Hash` contract, `Write` absorbs bytes into the stream and
`Sum(nil)` returns the MAC of every byte written so far. -/
structure GoHmac where
  key : List Nat
  data : List Nat

/-- Model of Go `hmac.New(sha256.New, key)`. -/
def hmacNew (key : List Nat) : GoHmac := ⟨key, []⟩

/-- Model of Go `h.Write(d)` on an HMAC hash object. -/
def GoHmac.write (h : GoHmac) (d : List Nat) : GoHmac := ⟨h.key, h.data ++ d⟩

/-- Model of Go `h.Sum(nil)` on an HMAC hash object. -/
def GoHmac.sum (h : GoHmac) : List Nat := hmacSha256 h.key h.data

/-- The `protocolKey` computation of `Login` (processdata.go lines 825-831):
`hmac.New(sha256.New, storedKey)` followed by three `Write` calls
("Session Key", the auth message, the client key) and `Sum(nil)`. -/
def goProtocolKey (storedKey : List Nat) (authMsg : String) (clientKey : List Nat) : List Nat :=
  ((((hmacNew storedKey).write (strBytes "Session Key")).write (strBytes authMsg)).write clientKey).sum

/-- Go `bytes.Compare`: lexicographic comparison returning -1, 0 or 1. -/
def bytesCompare : List Nat → List Nat → Int
  | [], [] => 0
  | [], _ :: _ => -1
  | _ :: _, [] => 1
  | a :: as, b :: bs => if a < b then -1 else if b < a then 1 else bytesCompare as bs

/-- Leakage model for `bytes.Compare`: the number of byte positions the
comparison examines before its result is determined.  The scan stops at the
first differing position, so the cost depends on the byte contents, not
only on the lengths: the comparison is not constant-time. -/
def bytesCompareCost : List Nat → List Nat → Nat
  | a :: as, b :: bs => 1 + (if a = b then bytesCompareCost as bs else 0)
  | _, _ => 0

theorem bytesCompare_eq_zero_iff (a b : List Nat) : bytesCompare a b = 0 ↔ a = b := by
  induction a generalizing b with
  | nil => cases b <;> simp [bytesCompare]
  | cons x as ih =>
    cases b with
    | nil => simp [bytesCompare]
    | cons y bs =>
      by_cases hxy : x < y
      · simp [bytesCompare, hxy]
        omega
      · by_cases hyx : y < x
        · simp [bytesCompare, hxy, hyx]
          omega
        · have : x = y := by omega
          simp [bytesCompare, hxy, hyx, this, ih]

/-- Value of a character in the standard base64 alphabet (RFC 4648). -/
def b64Val (c : Char) : Option Nat :=
  let n := c.toNat
  if 65 ≤ n ∧ n ≤ 90 then some (n - 65)
  else if 97 ≤ n ∧ n ≤ 122 then some (n - 97 + 26)
  else if 48 ≤ n ∧ n ≤ 57 then some (n - 48 + 52)
  else if n = 43 then some 62
  else if n = 47 then some 63
  else none

/-- Standard base64 decoding on four-character quanta with `=` padding.
Invalid input stops the decode and yields the bytes decoded so far, which
models Go's `base64.StdEncoding.DecodeString` whose error return is
discarded (`signature, _ := b64.StdEncoding.DecodeString(...)`). -/
def b64DecodeAux : List Char → List Nat
  | c1 :: c2 :: c3 :: c4 :: rest =>
    match b64Val c1, b64Val c2 with
    | some v1, some v2 =>
      let b1 := v1 * 4 + v2 / 16
      if c3 = '=' then [b1]
      else
        match b64Val c3 with
        | some v3 =>
          let b2 := (v2 % 16) * 16 + v3 / 4
          if c4 = '=' then [b1, b2]
          else
            match b64Val c4 with
            | some v4 => b1 :: b2 :: ((v3 % 4) * 64 + v4) :: b64DecodeAux rest
            | none => [b1, b2]
        | none => [b1]
    | _, _ => []
  | _ => []

/-- Model of Go `base64.StdEncoding.DecodeString` with the error ignored. -/
def b64Decode (s : String) : List Nat := b64DecodeAux s.data

/-- A decoded JSON value as stored in Go's `map[string]interface{}`.
JSON numbers in this protocol are integer-valued; Go decodes them to
`float64`, on which `int64(...)` truncation is exact for these values, so
they are carried as `Int` here. -/
inductive JVal
  | str (s : String)
  | num (n : Int)
  | jbool (b : Bool)
  | null
deriving DecidableEq

/-- A decoded JSON object (Go `map[string]interface{}`). -/
def JObj := List (String × JVal)

/-- Key lookup in a decoded JSON object; `none` means the key is absent. -/
def lookupJ (obj : JObj) (k : String) : Option JVal := List.lookup k obj

/-- An abnormal outcome of a Go code path: either a returned `error`
value (`errors.New msg`) or a run-time panic from a failed interface
type assertion. -/
inductive GoErr
  | goError (msg : String)
  | panicInterfaceConversion
deriving DecidableEq

/-- Model of the Go type assertion `v.(string)` on a map lookup: the
assertion panics unless the key is present and holds a string. -/
def asString : Option JVal → Except GoErr String
  | some (JVal.str s) => Except.ok s
  | _ => Except.error GoErr.panicInterfaceConversion

/-- Model of Go `int64(v.(float64))` on a map lookup: the assertion panics
unless the key is present and holds a JSON number; a numeric value is
truncated to an integer. -/
def asNumber : Option JVal → Except GoErr Int
  | some (JVal.num n) => Except.ok n
  | _ => Except.error GoErr.panicInterfaceConversion

/-- The field extraction `Login` performs on the decoded AuthStart response
(processdata.go lines 727-735): unchecked type assertions on `nonce`,
`rounds`, `salt` and `transactionId`. -/
def parseAuthStart (result : JObj) : Except GoErr (String × Int × String × String) := do
  let serverNonce ← asString (lookupJ result "nonce")
  let rounds ← asNumber (lookupJ result "rounds")
  let serverSalt ← asString (lookupJ result "salt")
  let transactionId ← asString (lookupJ result "transactionId")
  return (serverNonce, rounds, serverSalt, transactionId)

/-- The configuration and session state of the library client. -/
structure AuthClient where
  Scheme : String
  Server : String
  Password : String
  SessionId : String
deriving DecidableEq

/-- Model of `golrackpi.NewWithParameter` (processdata.go lines 642-654):
the scheme is kept only if it is exactly `"https"`, otherwise replaced by
`"http"`; the returned struct literal sets `Scheme`, `Server` and
`Password` and leaves `SessionId` at its zero value `""`. -/
def NewWithParameter (param : AuthClient) : AuthClient :=
  let scheme := if param.Scheme = "https" then "https" else "http"
  { Scheme := scheme, Server := param.Server, Password := param.Password, SessionId := "" }

/-- Model of the mutator `(*AuthClient).SetScheme` (processdata.go lines
667-674): same normalization as the constructor. -/
def setScheme (c : AuthClient) (scheme : String) : AuthClient :=
  { c with Scheme := if scheme = "https" then "https" else "http" }

/-- Outcome of the HTTP round trip performed by `Logout`: either the
request itself fails in transit, or a response with some status arrives. -/
inductive HttpResult
  | transportError
  | response (statusCode : Nat)
deriving DecidableEq

/-- Model of `(*AuthClient).Logout` (processdata.go lines 919-938): on a
transport error or a status other than 200 it returns
`(false, "logout error")` without touching the client; only on status 200
does it clear `SessionId` and return `(true, nil)`. -/
def Logout (c : AuthClient) (r : HttpResult) : (Bool × Option String) × AuthClient :=
  match r with
  | HttpResult.transportError => ((false, some "logout error"), c)
  | HttpResult.response code =>
    if code ≠ 200 then ((false, some "logout error"), c)
    else ((true, none), { c with SessionId := "" })

/-- An HTTP response as seen by `Login`: a status code and a decoded JSON
body.  `Login` never inspects the status code. -/
structure HttpResponse where
  statusCode : Nat
  body : JObj

/-- The POST requests `Login` can issue after the AuthFinish response has
been decoded. -/
inductive PostEvent
  | createSession
deriving DecidableEq

/-- The portion of `Login` that handles the decoded AuthFinish response
(processdata.go lines 799-877), paired with the trace of POSTs issued:
1. if the `signature` or `token` key is absent, return the
   "authentication failed" error;
2. assert both values to strings (a non-string value panics);
3. base64-decode the signature and compare it to the locally computed
   `serverSignature` with `bytes.Compare`; on any difference return the
   "signature check error" error;
4. derive the protocol key and hand it to `aes.NewCipher`, which rejects
   key lengths other than 16, 24 or 32 bytes;
5. only then seal the token and POST `create_session`. -/
def finishWrapPhase (resp : HttpResponse) (serverSignature storedKey clientKey : List Nat)
    (authMsg : String) : Except GoErr String × List PostEvent :=
  if (lookupJ resp.body "signature").isNone || (lookupJ resp.body "token").isNone then
    (Except.error (GoErr.goError "authentication failed"), [])
  else
    match asString (lookupJ resp.body "signature") with
    | Except.error e => (Except.error e, [])
    | Except.ok signatureStr =>
      match asString (lookupJ resp.body "token") with
      | Except.error e => (Except.error e, [])
      | Except.ok token =>
        let signature := b64Decode signatureStr
        if bytesCompare signature serverSignature ≠ 0 then
          (Except.error (GoErr.goError "signature check error"), [])
        else
          let pk := goProtocolKey storedKey authMsg clientKey
          if pk.length = 16 ∨ pk.length = 24 ∨ pk.length = 32 then
            (Except.ok token, [PostEvent.createSession])
          else
            (Except.error (GoErr.goError "cipher creation error"), [])

/-- An argument to Go's `fmt.Sprintf`, restricted to the verbs the login
code uses: `%s` on a string and `%d` on an integer. -/
inductive FmtArg
  | fs (v : String)
  | fd (v : Int)

/-- Interpreter for a `fmt.Sprintf` format string over `%s` and `%d`
verbs; literal characters are copied, each verb consumes one argument
(`%d` formats the integer in decimal, as Go does).  An unmatched verb is
copied literally; the format used by `Login` never hits that case. -/
def sprintfAux : List Char → List FmtArg → List Char
  | [], _ => []
  | '%' :: 's' :: rest, FmtArg.fs v :: args => v.data ++ sprintfAux rest args
  | '%' :: 'd' :: rest, FmtArg.fd v :: args => (toString v).data ++ sprintfAux rest args
  | c :: rest, args => c :: sprintfAux rest args

/-- Model of Go `fmt.Sprintf` for the format strings used by `Login`. -/
def gfmtSprintf (format : String) (args : List FmtArg) : String :=
  ⟨sprintfAux format.data args⟩

/-- The hard-coded user name of `Login` (processdata.go line 691). -/
def userName : String := "user"

/-- The `authMessage` computation of `Login` (processdata.go line 754):
`fmt.Sprintf("n=%s,r=%s,r=%s,s=%s,i=%d,c=biws,r=%s", userName,
startRequest.Nonce, serverNonce, serverSalt, rounds, serverNonce)`, where
`startRequest.Nonce` is the base64 client nonce sent in AuthStart and
`serverNonce`, `serverSalt` are the strings received from the server. -/
def authMessage (clientNonceB64 serverNonce serverSalt : String) (rounds : Int) : String :=
  gfmtSprintf "n=%s,r=%s,r=%s,s=%s,i=%d,c=biws,r=%s"
    [FmtArg.fs userName, FmtArg.fs clientNonceB64, FmtArg.fs serverNonce,
     FmtArg.fs serverSalt, FmtArg.fd rounds, FmtArg.fs serverNonce]

theorem authMessage_data (c n s : String) (r : Int) :
    (authMessage c n s r).data =
      "n=user,r=".data ++ c.data ++ ",r=".data ++ n.data ++ ",s=".data ++ s.data ++
      ",i=".data ++ (toString r).data ++ ",c=biws,r=".data ++ n.data := by
  show sprintfAux "n=%s,r=%s,r=%s,s=%s,i=%d,c=biws,r=%s".data _ = _
  have hf : "n=%s,r=%s,r=%s,s=%s,i=%d,c=biws,r=%s".data =
      ['n', '=', '%', 's', ',', 'r', '=', '%', 's', ',', 'r', '=', '%', 's', ',', 's', '=',
       '%', 's', ',', 'i', '=', '%', 'd', ',', 'c', '=', 'b', 'i', 'w', 's', ',', 'r', '=',
       '%', 's'] := rfl
  have hu : "user".data = ['u', 's', 'e', 'r'] := rfl
  rw [hf]
  simp [sprintfAux, userName, hu, List.append_assoc]

/-- Whether the pattern (first argument) occurs at the front of the text
(second argument). -/
def isMatch : List Char → List Char → Bool
  | [], _ => true
  | _ :: _, [] => false
  | p :: ps, s :: ss => p == s && isMatch ps ss

/-- Number of positions of the text at which the pattern occurs. -/
def countOcc (p : List Char) : List Char → Nat
  | [] => 0
  | c :: t => (if isMatch p (c :: t) then 1 else 0) + countOcc p t

/-- Number of occurrences of a pattern string inside a string. -/
def countSubstr (pat s : String) : Nat := countOcc pat.data s.data

theorem isMatch_append_self (p r : List Char) : isMatch p (p ++ r) = true := by
  induction p with
  | nil => rfl
  | cons x ps ih => simp [isMatch, ih]

theorem isMatch_trans (p q s : List Char) (h1 : isMatch p q = true) (h2 : isMatch q s = true) :
    isMatch p s = true := by
  induction p generalizing q s with
  | nil => rfl
  | cons x ps ih =>
    cases q with
    | nil => simp [isMatch] at h1
    | cons y qs =>
      cases s with
      | nil => simp [isMatch] at h2
      | cons z ss =>
        simp [isMatch] at h1 h2 ⊢
        exact ⟨h1.1.trans h2.1, ih qs ss h1.2 h2.2⟩

theorem countOcc_mono (p q : List Char) (h : isMatch p q = true) (s : List Char) :
    countOcc q s ≤ countOcc p s := by
  induction s with
  | nil => simp [countOcc]
  | cons c t ih =>
    simp only [countOcc]
    have : (if isMatch q (c :: t) then 1 else 0) ≤ (if isMatch p (c :: t) then 1 else 0) := by
      by_cases hq : isMatch q (c :: t) = true
      · simp [hq, isMatch_trans p q (c :: t) h hq]
      · simp [hq]
    omega

theorem countOcc_pos (p a b : List Char) (hp : p ≠ []) : 1 ≤ countOcc p (a ++ p ++ b) := by
  induction a with
  | nil =>
    cases p with
    | nil => exact absurd rfl hp
    | cons x ps =>
      simp only [List.nil_append, List.cons_append, countOcc]
      have : isMatch (x :: ps) ((x :: ps) ++ b) = true := isMatch_append_self _ _
      simp only [List.cons_append] at this
      simp [this]
  | cons y a' ih =>
    show 1 ≤ countOcc p ((y :: a') ++ p ++ b)
    have hunf : countOcc p ((y :: a') ++ p ++ b) =
        (if isMatch p (y :: (a' ++ p ++ b)) then 1 else 0) + countOcc p (a' ++ p ++ b) := rfl
    rw [hunf]
    have h1 := ih
    omega

theorem countOcc_two_append (c : Char) (l r : List Char)
    (hr : ∀ x, r.head? = some x → x ≠ '=') :
    countOcc [c, '='] (l ++ r) = countOcc [c, '='] l + countOcc [c, '='] r := by
  induction l with
  | nil => simp [countOcc]
  | cons x l' ih =>
    have hmatch : isMatch [c, '='] (x :: (l' ++ r)) = isMatch [c, '='] (x :: l') := by
      cases l' with
      | nil =>
        cases hr2 : r with
        | nil => simp [isMatch]
        | cons y rs =>
          have hy : ¬ ('=' = y) := fun he => hr y (by simp [hr2]) he.symm
          simp [isMatch, hy]
      | cons z l'' => simp [isMatch]
    have hunf1 : countOcc [c, '='] ((x :: l') ++ r) =
        (if isMatch [c, '='] (x :: (l' ++ r)) then 1 else 0) + countOcc [c, '='] (l' ++ r) := rfl
    have hunf2 : countOcc [c, '='] (x :: l') =
        (if isMatch [c, '='] (x :: l') then 1 else 0) + countOcc [c, '='] l' := rfl
    rw [hunf1, hunf2, ih, hmatch]
    omega

theorem countOcc_two_nil (c : Char) (l : List Char) (h : '=' ∉ l) : countOcc [c, '='] l = 0 := by
  induction l with
  | nil => rfl
  | cons x t ih =>
    have hx : '=' ≠ x := fun he => h (he ▸ List.mem_cons_self x t)
    have ht : '=' ∉ t := fun he => h (List.mem_cons_of_mem x he)
    have hmatch : isMatch [c, '='] (x :: t) = false := by
      cases t with
      | nil => simp [isMatch]
      | cons y ts =>
        have hy : ('=' : Char) ≠ y := fun he => ht (he ▸ List.mem_cons_self y ts)
        simp [isMatch, hy]
    simp [countOcc, hmatch, ih ht]

theorem goProtocolKey_length (storedKey clientKey : List Nat) (authMsg : String) :
    (goProtocolKey storedKey authMsg clientKey).length = 32 := by
  simp [goProtocolKey, GoHmac.sum, hmacSha256_length]

theorem stringData_append (a b : String) : (a ++ b).data = a.data ++ b.data := by
  cases a
  cases b
  rfl

/-- C10: for every parameter struct, the client returned by
`NewWithParameter` has an empty `SessionId`: the struct literal it builds
omits the field, so any `SessionId` in the argument is discarded and a
fresh client is always logged out. -/
theorem newWithParameter_sessionId_empty (param : AuthClient) :
    (NewWithParameter param).SessionId = "" := rfl

/-- C6: both `NewWithParameter` and `SetScheme` keep the scheme `"https"`
exactly when the input is the literal `"https"` and coerce every other
string (including `"HTTPS"` and `"HtTpS"`) to `"http"`. -/
theorem scheme_normalized (param c : AuthClient) (s : String) :
    ((NewWithParameter param).Scheme = "https" ↔ param.Scheme = "https")
    ∧ ((NewWithParameter param).Scheme = "https" ∨ (NewWithParameter param).Scheme = "http")
    ∧ ((setScheme c s).Scheme = "https" ↔ s = "https")
    ∧ ((setScheme c s).Scheme = "https" ∨ (setScheme c s).Scheme = "http")
    ∧ (setScheme c "HTTPS").Scheme = "http"
    ∧ (setScheme c "HtTpS").Scheme = "http"
    ∧ (setScheme c "https").Scheme = "https" := by
  refine ⟨?_, ?_, ?_, ?_, rfl, rfl, rfl⟩
  · by_cases h : param.Scheme = "https" <;> simp [NewWithParameter, h]
  · by_cases h : param.Scheme = "https" <;> simp [NewWithParameter, h]
  · by_cases h : s = "https" <;> simp [setScheme, h]
  · by_cases h : s = "https" <;> simp [setScheme, h]

/-- C9: the protocol key computed by `Login` — an HMAC object keyed with
`storedKey` that absorbs `"Session Key"`, then the auth message, then the
client key — equals the single HMAC-SHA-256 of the concatenation of the
three inputs, and is 32 bytes long. -/
theorem protocolKey_single_hmac (storedKey clientKey : List Nat) (authMsg : String) :
    goProtocolKey storedKey authMsg clientKey =
      hmacSha256 storedKey (strBytes "Session Key" ++ strBytes authMsg ++ clientKey)
    ∧ (goProtocolKey storedKey authMsg clientKey).length = 32 := by
  constructor
  · simp [goProtocolKey, hmacNew, GoHmac.write, GoHmac.sum, List.append_assoc]
  · exact goProtocolKey_length storedKey clientKey authMsg

/-- C3 (code bug): the AuthStart field extraction panics — it does not
return a typed protocol error — when `rounds` arrives as a JSON string or
when a required field such as `nonce` is missing, because the code uses
unchecked type assertions; a numeric `rounds` of 29000.0 is accepted and
coerced to the integer 29000. -/
theorem authStart_parse_panics :
    parseAuthStart [("nonce", JVal.str "n1"), ("rounds", JVal.str "many"),
      ("salt", JVal.str "s1"), ("transactionId", JVal.str "t1")]
      = Except.error GoErr.panicInterfaceConversion
    ∧ parseAuthStart [("rounds", JVal.num 29000), ("salt", JVal.str "s1"),
      ("transactionId", JVal.str "t1")]
      = Except.error GoErr.panicInterfaceConversion
    ∧ parseAuthStart [("nonce", JVal.str "n1"), ("rounds", JVal.num 29000),
      ("salt", JVal.str "s1"), ("transactionId", JVal.str "t1")]
      = Except.ok ("n1", 29000, "s1", "t1") :=
  ⟨rfl, rfl, rfl⟩

/-- C2 counterexample: after a `Logout` whose HTTP round trip came back
with status 500, the client's `SessionId` is NOT empty — the code clears
the session id only after the success check, so the claim that it is
cleared even when the request fails is false. -/
theorem logout_failure_keeps_sessionId :
    ((Logout ⟨"http", "host", "pw", "abc123"⟩ (HttpResult.response 500)).2).SessionId ≠ "" := by
  decide

/-- C2 (amended): `Logout` clears `SessionId` only on a successful round
trip with status 200; on a transport error or any other status it returns
`(false, "logout error")` and leaves the client, including `SessionId`,
unchanged. -/
theorem logout_clears_only_on_success (c : AuthClient) (code : Nat) (hcode : code ≠ 200) :
    Logout c HttpResult.transportError = ((false, some "logout error"), c)
    ∧ Logout c (HttpResult.response code) = ((false, some "logout error"), c)
    ∧ Logout c (HttpResult.response 200) = ((true, none), { c with SessionId := "" }) := by
  refine ⟨rfl, ?_, rfl⟩
  simp [Logout, hcode]

theorem logout_clears_only_on_success_witness :
    (500 : Nat) ≠ 200
    ∧ Logout ⟨"http", "host", "pw", "sid"⟩ (HttpResult.response 500)
        = ((false, some "logout error"), ⟨"http", "host", "pw", "sid"⟩) :=
  ⟨by decide, (logout_clears_only_on_success ⟨"http", "host", "pw", "sid"⟩ 500 (by decide)).2.1⟩

/-- C1 counterexample: the number of byte positions `bytes.Compare`
examines differs between two pairs of inputs of identical lengths, so the
signature comparison in `Login` is not constant-time (the claim's
constant-time conjunct is false of the code). -/
theorem bytesCompare_not_constant_time :
    ([0, 0] : List Nat).length = ([1, 0] : List Nat).length
    ∧ ([0, 0] : List Nat).length = ([0, 1] : List Nat).length
    ∧ bytesCompareCost [0, 0] [1, 0] ≠ bytesCompareCost [0, 0] [0, 1] := by
  decide

/-- C5 counterexample: on the happy-path fixture (client nonce
`TGJkYWFpekNMZWpY`, server nonce `SrvNonce-xyz`, salt
`base64("0123456789ABCDEF")`, 20000 rounds) the auth message contains
three occurrences of `r=`, not four as claimed. -/
theorem authMessage_r_count_counterexample :
    countSubstr "r=" (authMessage "TGJkYWFpekNMZWpY" "SrvNonce-xyz"
      "MDEyMzQ1Njc4OUFCQ0RFRg==" 20000) ≠ 4 := by
  decide
/-- C4: the auth message built by `Login` is exactly
`"n=user," ++ "r=" ++ clientNonceB64 ++ ",r=" ++ serverNonce ++ ",s=" ++
serverSalt ++ ",i=" ++ rounds ++ ",c=biws,r=" ++ serverNonce`: the user
name is the literal `user`, the client nonce is the base64 string sent in
AuthStart, the server nonce and salt are the received strings verbatim,
the rounds are decimal, and the closing `r=` repeats the server nonce. -/
theorem authMessage_format (c n s : String) (r : Int) :
    authMessage c n s r =
      "n=user,r=" ++ c ++ ",r=" ++ n ++ ",s=" ++ s ++ ",i=" ++ toString r ++ ",c=biws,r=" ++ n := by
  have h := authMessage_data c n s r
  have hd : ("n=user,r=" ++ c ++ ",r=" ++ n ++ ",s=" ++ s ++ ",i=" ++ toString r ++
      ",c=biws,r=" ++ n).data =
      "n=user,r=".data ++ c.data ++ ",r=".data ++ n.data ++ ",s=".data ++ s.data ++
      ",i=".data ++ (toString r).data ++ ",c=biws,r=".data ++ n.data := by
    simp [stringData_append]
  cases hM : authMessage c n s r
  cases hR : ("n=user,r=" ++ c ++ ",r=" ++ n ++ ",s=" ++ s ++ ",i=" ++ toString r ++
      ",c=biws,r=" ++ n)
  rw [hM] at h
  rw [hR] at hd
  simp only at h hd
  rw [h, ← hd]

/-- C7: the portion of `Login` that handles the AuthFinish response
returns the "authentication failed" error exactly when the decoded body
lacks the `signature` key or the `token` key, whatever the HTTP status;
with both keys present that error path is never taken. -/
theorem authenticationFailed_iff_missing (resp : HttpResponse) (sSig sKey cKey : List Nat)
    (am : String) :
    (finishWrapPhase resp sSig sKey cKey am).1
        = Except.error (GoErr.goError "authentication failed")
    ↔ (lookupJ resp.body "signature" = none ∨ lookupJ resp.body "token" = none) := by
  rcases hsig : lookupJ resp.body "signature" with _ | v1
  · simp [finishWrapPhase, hsig]
  · rcases htok : lookupJ resp.body "token" with _ | v2
    · simp [finishWrapPhase, hsig, htok]
    · simp only [finishWrapPhase, hsig, htok, Option.isNone_some, Bool.or_self, Bool.false_eq_true,
        if_false]
      cases v1 <;> cases v2 <;>
        simp [asString] <;>
        (try split) <;>
        simp_all [goProtocolKey_length]

/-- C8: when the base64-decoded server signature differs from the locally
computed `serverSignature`, `Login` returns the "signature check error"
and issues no `create_session` POST, even though the response carried a
token. -/
theorem signature_mismatch_blocks_session (resp : HttpResponse) (sSig sKey cKey : List Nat)
    (am : String) (sigStr tokStr : String)
    (hs : lookupJ resp.body "signature" = some (JVal.str sigStr))
    (ht : lookupJ resp.body "token" = some (JVal.str tokStr))
    (hne : b64Decode sigStr ≠ sSig) :
    (finishWrapPhase resp sSig sKey cKey am).1
        = Except.error (GoErr.goError "signature check error")
    ∧ PostEvent.createSession ∉ (finishWrapPhase resp sSig sKey cKey am).2 := by
  have hcmp : bytesCompare (b64Decode sigStr) sSig ≠ 0 :=
    fun hz => hne ((bytesCompare_eq_zero_iff _ _).mp hz)
  simp [finishWrapPhase, hs, ht, asString, hcmp]

theorem signature_mismatch_blocks_session_witness :
    lookupJ [("signature", JVal.str "AA=="), ("token", JVal.str "tok")] "signature"
        = some (JVal.str "AA==")
    ∧ lookupJ [("signature", JVal.str "AA=="), ("token", JVal.str "tok")] "token"
        = some (JVal.str "tok")
    ∧ b64Decode "AA==" ≠ [1]
    ∧ (finishWrapPhase ⟨200, [("signature", JVal.str "AA=="), ("token", JVal.str "tok")]⟩
          [1] [] [] "").1 = Except.error (GoErr.goError "signature check error")
    ∧ PostEvent.createSession ∉ (finishWrapPhase
          ⟨200, [("signature", JVal.str "AA=="), ("token", JVal.str "tok")]⟩ [1] [] [] "").2 := by
  have h := signature_mismatch_blocks_session
    ⟨200, [("signature", JVal.str "AA=="), ("token", JVal.str "tok")]⟩ [1] [] [] ""
    "AA==" "tok" rfl rfl (by decide)
  exact ⟨rfl, rfl, by decide, h.1, h.2⟩

/-- C1 (amended): the server signature is compared with `bytes.Compare`
(a lexicographic early-exit comparison, not a constant-time one), and the
`create_session` POST is attempted exactly when the decoded signature and
the locally computed `serverSignature` are byte-identical. -/
theorem createSession_iff_signature_match (resp : HttpResponse) (sSig sKey cKey : List Nat)
    (am : String) (sigStr tokStr : String)
    (hs : lookupJ resp.body "signature" = some (JVal.str sigStr))
    (ht : lookupJ resp.body "token" = some (JVal.str tokStr)) :
    PostEvent.createSession ∈ (finishWrapPhase resp sSig sKey cKey am).2
    ↔ b64Decode sigStr = sSig := by
  by_cases he : b64Decode sigStr = sSig
  · have hz : bytesCompare sSig sSig = 0 := (bytesCompare_eq_zero_iff _ _).mpr rfl
    simp [finishWrapPhase, hs, ht, asString, hz, he, goProtocolKey_length]
  · have hnz : bytesCompare (b64Decode sigStr) sSig ≠ 0 :=
      fun hz => he ((bytesCompare_eq_zero_iff _ _).mp hz)
    simp [finishWrapPhase, hs, ht, asString, hnz, he]

theorem createSession_iff_signature_match_witness :
    lookupJ [("signature", JVal.str "AA=="), ("token", JVal.str "tok")] "signature"
        = some (JVal.str "AA==")
    ∧ lookupJ [("signature", JVal.str "AA=="), ("token", JVal.str "tok")] "token"
        = some (JVal.str "tok")
    ∧ PostEvent.createSession ∈ (finishWrapPhase
        ⟨200, [("signature", JVal.str "AA=="), ("token", JVal.str "tok")]⟩ [0] [] [] "").2 :=
  ⟨rfl, rfl,
    (createSession_iff_signature_match
      ⟨200, [("signature", JVal.str "AA=="), ("token", JVal.str "tok")]⟩ [0] [] [] ""
      "AA==" "tok" rfl rfl).mpr (by decide)⟩
/-- C5 (amended): for every client nonce containing no `=` character (in
particular every base64 nonce the client generates, which is 16 unpadded
base64 characters), the auth message built over the happy-path fixture
(server nonce `SrvNonce-xyz`, salt `base64("0123456789ABCDEF")`, 20000
rounds) begins with `n=user,r=` and contains exactly THREE occurrences of
`r=` (counting the initial one), exactly one `s=`, one `i=` and one
`c=biws`.  The format string has only three `r=` fields, so the claimed
four is off by one. -/
theorem authMessage_token_counts (cn : String) (h : '=' ∉ cn.data) :
    isMatch "n=user,r=".data
        (authMessage cn "SrvNonce-xyz" "MDEyMzQ1Njc4OUFCQ0RFRg==" 20000).data = true
    ∧ countSubstr "r=" (authMessage cn "SrvNonce-xyz" "MDEyMzQ1Njc4OUFCQ0RFRg==" 20000) = 3
    ∧ countSubstr "s=" (authMessage cn "SrvNonce-xyz" "MDEyMzQ1Njc4OUFCQ0RFRg==" 20000) = 1
    ∧ countSubstr "i=" (authMessage cn "SrvNonce-xyz" "MDEyMzQ1Njc4OUFCQ0RFRg==" 20000) = 1
    ∧ countSubstr "c=biws" (authMessage cn "SrvNonce-xyz" "MDEyMzQ1Njc4OUFCQ0RFRg==" 20000)
        = 1 := by
  have hlit : ",r=".data ++ ("SrvNonce-xyz".data ++ (",s=".data ++
      ("MDEyMzQ1Njc4OUFCQ0RFRg==".data ++ (",i=".data ++ ((toString (20000 : Int)).data ++
      (",c=biws,r=".data ++ "SrvNonce-xyz".data)))))) =
      ",r=SrvNonce-xyz,s=MDEyMzQ1Njc4OUFCQ0RFRg==,i=20000,c=biws,r=SrvNonce-xyz".data := by
    decide
  have hmsg : (authMessage cn "SrvNonce-xyz" "MDEyMzQ1Njc4OUFCQ0RFRg==" 20000).data =
      "n=user,r=".data ++ (cn.data ++
        ",r=SrvNonce-xyz,s=MDEyMzQ1Njc4OUFCQ0RFRg==,i=20000,c=biws,r=SrvNonce-xyz".data) := by
    rw [authMessage_data, ← hlit]
    simp [List.append_assoc]
  have hr2 : ∀ x,
      (",r=SrvNonce-xyz,s=MDEyMzQ1Njc4OUFCQ0RFRg==,i=20000,c=biws,r=SrvNonce-xyz".data).head?
        = some x → x ≠ '=' := by
    intro x hx
    have hh : (",r=SrvNonce-xyz,s=MDEyMzQ1Njc4OUFCQ0RFRg==,i=20000,c=biws,r=SrvNonce-xyz".data).head?
        = some ',' := rfl
    rw [hh] at hx
    rw [← Option.some.inj hx]
    decide
  have hr1 : ∀ x, (cn.data ++
      ",r=SrvNonce-xyz,s=MDEyMzQ1Njc4OUFCQ0RFRg==,i=20000,c=biws,r=SrvNonce-xyz".data).head?
        = some x → x ≠ '=' := by
    intro x hx
    cases hcn : cn.data with
    | nil =>
      rw [hcn, List.nil_append] at hx
      exact hr2 x hx
    | cons c0 t =>
      rw [hcn] at hx
      have hc0 : c0 = x := by
        simp only [List.cons_append, List.head?_cons] at hx
        exact Option.some.inj hx
      intro he
      exact h (by rw [hcn, hc0, he]; exact List.mem_cons_self _ _)
  have hcount : ∀ c : Char,
      countOcc [c, '='] (authMessage cn "SrvNonce-xyz" "MDEyMzQ1Njc4OUFCQ0RFRg==" 20000).data =
        countOcc [c, '='] "n=user,r=".data + countOcc [c, '=']
          ",r=SrvNonce-xyz,s=MDEyMzQ1Njc4OUFCQ0RFRg==,i=20000,c=biws,r=SrvNonce-xyz".data := by
    intro c
    rw [hmsg, countOcc_two_append c _ _ hr1, countOcc_two_append c _ _ hr2,
      countOcc_two_nil c _ h]
    omega
  refine ⟨?_, ?_, ?_, ?_, ?_⟩
  · rw [hmsg]
    exact isMatch_append_self _ _
  · show countOcc "r=".data _ = 3
    rw [show "r=".data = ['r', '='] from rfl, hcount 'r']
    decide
  · show countOcc "s=".data _ = 1
    rw [show "s=".data = ['s', '='] from rfl, hcount 's']
    decide
  · show countOcc "i=".data _ = 1
    rw [show "i=".data = ['i', '='] from rfl, hcount 'i']
    decide
  · show countOcc "c=biws".data _ = 1
    have hle : countOcc "c=biws".data
        (authMessage cn "SrvNonce-xyz" "MDEyMzQ1Njc4OUFCQ0RFRg==" 20000).data ≤
        countOcc ['c', '=']
          (authMessage cn "SrvNonce-xyz" "MDEyMzQ1Njc4OUFCQ0RFRg==" 20000).data :=
      countOcc_mono ['c', '='] "c=biws".data (by decide) _
    have hc1 : countOcc ['c', '=']
        (authMessage cn "SrvNonce-xyz" "MDEyMzQ1Njc4OUFCQ0RFRg==" 20000).data = 1 := by
      rw [hcount 'c']
      decide
    have hge : 1 ≤ countOcc "c=biws".data
        (authMessage cn "SrvNonce-xyz" "MDEyMzQ1Njc4OUFCQ0RFRg==" 20000).data := by
      have hsplit : (authMessage cn "SrvNonce-xyz" "MDEyMzQ1Njc4OUFCQ0RFRg==" 20000).data =
          ("n=user,r=".data ++ (cn.data ++
            ",r=SrvNonce-xyz,s=MDEyMzQ1Njc4OUFCQ0RFRg==,i=20000,".data)) ++
          "c=biws".data ++ ",r=SrvNonce-xyz".data := by
        rw [hmsg]
        have hjoin : ",r=SrvNonce-xyz,s=MDEyMzQ1Njc4OUFCQ0RFRg==,i=20000,".data ++
            ("c=biws".data ++ ",r=SrvNonce-xyz".data) =
            ",r=SrvNonce-xyz,s=MDEyMzQ1Njc4OUFCQ0RFRg==,i=20000,c=biws,r=SrvNonce-xyz".data := by
          decide
        rw [← hjoin]
        simp [List.append_assoc]
      rw [hsplit]
      exact countOcc_pos _ _ _ (by decide)
    omega

theorem authMessage_token_counts_witness :
    '=' ∉ "TGJkYWFpekNMZWpY".data
    ∧ (isMatch "n=user,r=".data
        (authMessage "TGJkYWFpekNMZWpY" "SrvNonce-xyz" "MDEyMzQ1Njc4OUFCQ0RFRg==" 20000).data
          = true
    ∧ countSubstr "r="
        (authMessage "TGJkYWFpekNMZWpY" "SrvNonce-xyz" "MDEyMzQ1Njc4OUFCQ0RFRg==" 20000) = 3
    ∧ countSubstr "s="
        (authMessage "TGJkYWFpekNMZWpY" "SrvNonce-xyz" "MDEyMzQ1Njc4OUFCQ0RFRg==" 20000) = 1
    ∧ countSubstr "i="
        (authMessage "TGJkYWFpekNMZWpY" "SrvNonce-xyz" "MDEyMzQ1Njc4OUFCQ0RFRg==" 20000) = 1
    ∧ countSubstr "c=biws"
        (authMessage "TGJkYWFpekNMZWpY" "SrvNonce-xyz" "MDEyMzQ1Njc4OUFCQ0RFRg==" 20000) = 1) :=
  ⟨by decide, authMessage_token_counts "TGJkYWFpekNMZWpY" (by decide)⟩
